import Mathlib

/-!
Verification of the tree-packing simulator core (the "packing2" demo).

This file gives a shallow embedding of the CPU-side control logic of the
simulator: the validated parameter store (`SimulationParameters`), the
physics control loop (`PhysicsSimulator`: reset, uniform updates, the
asynchronous scoring pass `updateScore`, compression-probability
computation, tree-count resize handling) and the buffer layer's
`resizeTreeBuffers`.

Numbers are modelled over an arbitrary linearly ordered field `α`
(instantiated with `ℝ` or `ℚ` in the theorems and witnesses); the
JavaScript `Math` functions consumed by the code (`cos`, `sin`, `sqrt`,
`atan2`, `PI`) are passed in as an explicit record `JsMath α`, since no
claim depends on their analytic properties.  JavaScript's dynamically
typed values are modelled by `JsValue α` (a finite number, `NaN`, a
boolean, some other non-numeric value, or `undefined`); `Infinity` as a
score sentinel is modelled by `(⊤ : WithTop α)`.

The asynchronous scoring pass suspends exactly once (at the staging-buffer
map); a call observing the in-flight flag is modelled as the flag being
set at entry, so one invocation of `PhysicsSimulator.updateScore` models
the whole pass from entry to its `finally` block, and a concurrent call is
modelled by applying the function to a state whose flag is still set.
-/

/-- Number of f32 lanes per object record
(position:2, velocity:2, rotation:1, angular velocity:1, collision:1, padding:1). -/
def FLOATS_PER_TREE : ℕ := 8

/-- Size of an f32 in bytes. -/
def BYTES_PER_FLOAT : ℕ := 4

/-- A JavaScript value as seen by the parameter store: a finite number,
`NaN`, a boolean, some other (string/object/...) value, or `undefined`. -/
inductive JsValue (α : Type*) where
  | num (x : α)
  | nan
  | boolean (b : Bool)
  | str
  | undef
deriving DecidableEq

/-- A constraint entry of `SimulationParameters._constraints`: either
`{ type: 'boolean' }` or a numeric `{ min, max, step }` record whose
fields may individually be absent. -/
inductive JsConstraint (α : Type*) where
  | booleanType
  | numeric (min max step : Option α)
deriving DecidableEq

/-- A `(key, newValue, oldValue)` notification delivered to every
subscribed observer by `_notifyObservers`. -/
structure ParamChange (α : Type*) where
  key : String
  newValue : JsValue α
  oldValue : JsValue α
deriving DecidableEq

/-- The validated parameter store.  `params` models the `_params` object:
a total map from property name to stored value, `undefined` off the known
keys. -/
structure SimulationParameters (α : Type*) where
  params : String → JsValue α

section ParamsDefs

variable {α : Type*} [LinearOrderedField α]

/-- The `_constraints` table built by the `SimulationParameters`
constructor. -/
def constraintsTable (α : Type*) [LinearOrderedField α] : String → Option (JsConstraint α) := fun k =>
  if k = "treeCount" then some (.numeric (some 1) (some 200) (some 1))
  else if k = "zoom" then some (.numeric (some (1/10)) (some 10) (some (1/10)))
  else if k = "compression" then some (.numeric (some 0) (some 5) (some (1/10)))
  else if k = "relaxationRate" then some (.numeric (some (1/10)) (some 2) (some (1/10)))
  else if k = "autoPack" then some .booleanType
  else if k = "aspect" then some (.numeric (some (1/10)) (some 10) (some (1/10)))
  else if k = "renderFrequency" then some (.numeric (some 1) (some 30) (some 1))
  else none

/-- The `_params` object built by the `SimulationParameters` constructor. -/
def SimulationParameters.init (α : Type*) [LinearOrderedField α] : SimulationParameters α :=
  ⟨fun k =>
    if k = "treeCount" then .num 10
    else if k = "zoom" then .num 2
    else if k = "compression" then .num 1
    else if k = "relaxationRate" then .num 1
    else if k = "autoPack" then .boolean true
    else if k = "aspect" then .num 1
    else if k = "renderFrequency" then .num 1
    else .undef⟩

/-- `SimulationParameters._validateParameter(key, value)`: no constraint
entry rejects; a boolean-typed constraint accepts exactly booleans; a
numeric constraint rejects non-numbers and `NaN`, then rejects a value
below a present `min` or above a present `max`. -/
def validateParameter (k : String) (v : JsValue α) : Bool :=
  match constraintsTable α k with
  | none => false
  | some .booleanType =>
    match v with
    | .boolean _ => true
    | _ => false
  | some (.numeric lo hi _) =>
    match v with
    | .num x =>
      (!(match lo with | some m => decide (x < m) | none => false)) &&
      (!(match hi with | some m => decide (m < x) | none => false))
    | _ => false

/-- `SimulationParameters.get(key)`. -/
def SimulationParameters.get (p : SimulationParameters α) (k : String) : JsValue α :=
  p.params k

/-- `SimulationParameters.set(key, value)`: validates, stores, and (when
the stored value actually changed) notifies observers.  The returned list
is the sequence of notifications emitted by this call. -/
def SimulationParameters.set (p : SimulationParameters α) (k : String) (v : JsValue α) :
    SimulationParameters α × Bool × List (ParamChange α) :=
  if validateParameter k v then
    let oldValue := p.params k
    let p2 : SimulationParameters α := ⟨fun k2 => if k2 = k then v else p.params k2⟩
    (p2, true, if oldValue = v then [] else [⟨k, v, oldValue⟩])
  else
    (p, false, [])

/-- The override record accepted by `getUniforms`/`updateUniforms`
(`additionalParams`); an absent field falls back to the callee's default. -/
structure AdditionalParams (α : Type*) where
  probX : Option α := none
  probY : Option α := none
  centerX : Option α := none
  centerY : Option α := none

/-- `SimulationParameters.getUniforms(deltaTime, frameCount,
additionalParams)`: the fixed-order 8-entry uniform block
`[zoom, compression, probX, frameCount, aspect, 0, 0, 0]`.  The `probX`
override defaults to `0.5`; `deltaTime`, `probY`, `centerX`, `centerY`
are accepted and ignored. -/
def SimulationParameters.getUniforms (p : SimulationParameters α) (_deltaTime : JsValue α)
    (frameCount : α) (additionalParams : AdditionalParams α) : List (JsValue α) :=
  let probX := additionalParams.probX.getD (1/2)
  [p.params "zoom", p.params "compression", .num probX, .num frameCount,
    p.params "aspect", .num 0, .num 0, .num 0]

/-- The `defaults` object of `SimulationParameters.reset`, in property
order.  (Note: it has no `renderFrequency` entry.) -/
def resetDefaults (α : Type*) [LinearOrderedField α] : List (String × JsValue α) :=
  [("treeCount", .num 10), ("zoom", .num 2), ("compression", .num 1),
   ("relaxationRate", .num 1), ("autoPack", .boolean true), ("aspect", .num 1)]

/-- `SimulationParameters.reset()`: route each entry of `defaults`
through `set`, in order, accumulating the emitted notifications. -/
def SimulationParameters.reset (p : SimulationParameters α) :
    SimulationParameters α × List (ParamChange α) :=
  (resetDefaults α).foldl
    (fun acc kv =>
      let r := acc.1.set kv.1 kv.2
      (r.1, acc.2 ++ r.2.2))
    (p, [])

/-- The declared type/range constraint of each parameter as the spec
documents it: a number inside the inclusive documented range, or a
boolean for `autoPack`; everything else (unknown keys, `NaN`, wrong
types) is invalid.  This is the specification side of the validation
invariant, to be compared with the source-side `validateParameter`. -/
def SatisfiesConstraint (k : String) (v : JsValue α) : Prop :=
  if k = "treeCount" then ∃ x, v = .num x ∧ 1 ≤ x ∧ x ≤ 200
  else if k = "zoom" then ∃ x, v = .num x ∧ 1/10 ≤ x ∧ x ≤ 10
  else if k = "compression" then ∃ x, v = .num x ∧ 0 ≤ x ∧ x ≤ 5
  else if k = "relaxationRate" then ∃ x, v = .num x ∧ 1/10 ≤ x ∧ x ≤ 2
  else if k = "autoPack" then ∃ b, v = .boolean b
  else if k = "aspect" then ∃ x, v = .num x ∧ 1/10 ≤ x ∧ x ≤ 10
  else if k = "renderFrequency" then ∃ x, v = .num x ∧ 1 ≤ x ∧ x ≤ 30
  else False

end ParamsDefs

/-- The JavaScript `Math` functions consumed by the simulator, passed in
explicitly (no claim depends on their analytic properties). -/
structure JsMath (α : Type*) where
  cos : α → α
  sin : α → α
  sqrt : α → α
  atan2 : α → α → α
  pi : α

/-- An axis-aligned bounding box `{minX, maxX, minY, maxY}`. -/
structure Bounds (α : Type*) where
  minX : α
  maxX : α
  minY : α
  maxY : α
deriving DecidableEq

/-- The mutable state of a `PhysicsSimulator` (the fields touched by the
operations under verification).  `readBufferMapped` models whether the
staging (read) buffer currently holds a live CPU mapping. -/
structure PhysicsSimState (α : Type*) where
  currentBounds : Bounds α
  needsReset : Bool
  isProcessingFeedback : Bool
  bestScore : WithTop α
  stagnationCount : ℕ
  readBufferMapped : Bool
deriving DecidableEq

/-- The environment one `PhysicsSimulator` operation runs against:
`treeCount` is the validated value of `parameters.get('treeCount')`,
`polygon` the flat point list of `treeGeometry.getPolygon()` read in
`(x, y)` pairs, `rand` the stream of `Math.random()` draws, `data`/`len`
the `Float32Array` view of the mapped staging buffer, and
`autoPack`/`targetAspect` the validated values of
`parameters.get('autoPack')` and `parameters.get('aspect')`. -/
structure SimEnv (α : Type*) where
  treeCount : ℕ
  polygon : List (α × α)
  rand : ℕ → α
  data : ℕ → α
  len : ℕ
  autoPack : Bool
  targetAspect : α

/-- The snapshot object returned by a completed scoring pass. -/
structure ScoreSnapshot (α : Type*) where
  bounds : Bounds α
  score : α
  bestScore : WithTop α
  collisionCount : ℕ
  probX : α
  width : α
  height : α
  side : α
  stagnationCount : ℕ
  windMagnitude : α
  windDirection : α
deriving DecidableEq

section SimDefs

variable {α : Type*} [LinearOrderedField α]

/-- Initial `PhysicsSimulator` state set up by its constructor. -/
def PhysicsSimState.start (α : Type*) [LinearOrderedField α] : PhysicsSimState α :=
  { currentBounds := ⟨-1, 1, -1, 1⟩
    needsReset := false
    isProcessingFeedback := false
    bestScore := ⊤
    stagnationCount := 0
    readBufferMapped := false }

/-- One object record written by the loop body of `PhysicsSimulator.reset`:
position drawn in `±spread/2`, zero velocities, rotation drawn in
`[0, 6.28)`, zero angular velocity / collision flag / padding.  The three
`Math.random()` draws of iteration `i` are `rand (3*i)`, `rand (3*i+1)`,
`rand (3*i+2)` in call order. -/
def resetRecord (jm : JsMath α) (env : SimEnv α) (i : ℕ) : List α :=
  let spread := jm.sqrt (env.treeCount : α) * 2
  [(env.rand (3 * i) - 1/2) * spread,
   (env.rand (3 * i + 1) - 1/2) * spread,
   0, 0,
   env.rand (3 * i + 2) * (628/100),
   0, 0, 0]

/-- The `treeData` array built by `PhysicsSimulator.reset` for the first
`n` loop iterations: record `i` occupies lanes `8*i .. 8*i+7`. -/
def resetData (jm : JsMath α) (env : SimEnv α) : ℕ → List α
  | 0 => []
  | n + 1 => resetData jm env n ++ resetRecord jm env n

/-- `PhysicsSimulator.reset()`: drop any in-flight feedback, rebuild the
object array, write it to the tree buffer (the written array is returned),
reset `bestScore`/`stagnationCount`, and clear the pending-reset flag. -/
def PhysicsSimulator.reset (s : PhysicsSimState α) (jm : JsMath α) (env : SimEnv α) :
    PhysicsSimState α × List α :=
  ({ s with isProcessingFeedback := false
            bestScore := ⊤
            stagnationCount := 0
            needsReset := false },
   resetData jm env env.treeCount)

/-- `PhysicsSimulator.needsResetSimulation()`. -/
def PhysicsSimulator.needsResetSimulation (s : PhysicsSimState α) : Bool :=
  s.needsReset

/-- `PhysicsSimulator.markForReset()`. -/
def PhysicsSimulator.markForReset (s : PhysicsSimState α) : PhysicsSimState α :=
  { s with needsReset := true }

/-- `PhysicsSimulator.updateUniforms(deltaTime, frameCount,
additionalParams)`: destructure the overrides with neutral defaults
(`probX = probY = 1.0`, `centerX = centerY = 0.0`) and pass them through
to `parameters.getUniforms`; the returned block is what is written to the
uniform buffer. -/
def PhysicsSimulator.updateUniforms (p : SimulationParameters α) (deltaTime : JsValue α)
    (frameCount : α) (additionalParams : AdditionalParams α) : List (JsValue α) :=
  let probX := additionalParams.probX.getD 1
  let probY := additionalParams.probY.getD 1
  let centerX := additionalParams.centerX.getD 0
  let centerY := additionalParams.centerY.getD 0
  p.getUniforms deltaTime frameCount ⟨some probX, some probY, some centerX, some centerY⟩

/-- Fold one world-space point into the running bounding box.  `none`
models the initial `±Infinity` bounds, which any first point replaces;
afterwards each coordinate is widened by `min`/`max`, matching the four
comparison-and-assign statements of the source loop. -/
def updateBoundsPoint (b : Option (Bounds α)) (wx wy : α) : Option (Bounds α) :=
  match b with
  | none => some ⟨wx, wx, wy, wy⟩
  | some bb => some ⟨min bb.minX wx, max bb.maxX wx, min bb.minY wy, max bb.maxY wy⟩

/-- Fold step over a point pair. -/
def boundsStep (b : Option (Bounds α)) (q : α × α) : Option (Bounds α) :=
  updateBoundsPoint b q.1 q.2

/-- The accumulators of the per-tree loop of `updateScore`. -/
structure ScoreAcc (α : Type*) where
  bounds : Option (Bounds α)
  collisionCount : ℕ
  windX : α
  windY : α

/-- Loop body of `updateScore` for tree `i`: read the record lanes, count
a collision when the flag exceeds `0.5`, accumulate the pointy-end wind
unit vector at angle `rotation + π/2`, and fold every rotated-and-
translated polygon vertex into the bounding box. -/
def treeStep (jm : JsMath α) (env : SimEnv α) (acc : ScoreAcc α) (i : ℕ) : ScoreAcc α :=
  let idx := i * FLOATS_PER_TREE
  let px := env.data idx
  let py := env.data (idx + 1)
  let rot := env.data (idx + 4)
  let col := env.data (idx + 6)
  let collisionCount := if 1/2 < col then acc.collisionCount + 1 else acc.collisionCount
  let pointyEndAngle := rot + jm.pi / 2
  let windX := acc.windX + jm.cos pointyEndAngle
  let windY := acc.windY + jm.sin pointyEndAngle
  let cosR := jm.cos rot
  let sinR := jm.sin rot
  let bounds := env.polygon.foldl
    (fun b v => updateBoundsPoint b (px + (v.1 * cosR - v.2 * sinR)) (py + (v.1 * sinR + v.2 * cosR)))
    acc.bounds
  ⟨bounds, collisionCount, windX, windY⟩

/-- The per-tree loop of `updateScore` over trees `0 .. n-1`. -/
def scoreLoop (jm : JsMath α) (env : SimEnv α) : ℕ → ScoreAcc α
  | 0 => ⟨none, 0, 0, 0⟩
  | n + 1 => treeStep jm env (scoreLoop jm env n) n

/-- `PhysicsSimulator.updateScore()`, from entry to its `finally` block.
If a pass is already in flight the call returns `null` at once and touches
nothing.  Otherwise the pass sets the in-flight flag, maps the staging
buffer, validates its length (a short buffer throws, is caught and logged,
and leaves the buffer mapped — the `unmap` only happens after the loop),
runs the bounds/wind loop, unmaps, and either returns the snapshot
(updating `bestScore`/`stagnationCount`/`currentBounds`) or `null` when no
vertex was processed; the `finally` clears the in-flight flag on every one
of these paths. -/
def PhysicsSimulator.updateScore (s : PhysicsSimState α) (jm : JsMath α) (env : SimEnv α) :
    PhysicsSimState α × Option (ScoreSnapshot α) :=
  if s.isProcessingFeedback then (s, none)
  else
    let s1 := { s with isProcessingFeedback := true, readBufferMapped := true }
    if env.len < env.treeCount * FLOATS_PER_TREE then
      ({ s1 with isProcessingFeedback := false }, none)
    else
      let acc := scoreLoop jm env env.treeCount
      let s2 := { s1 with readBufferMapped := false }
      match acc.bounds with
      | none => ({ s2 with isProcessingFeedback := false }, none)
      | some bb =>
        let w := bb.maxX - bb.minX
        let h := bb.maxY - bb.minY
        let side := max w h
        let probX := if 0 < w + h then w / (w + h) else 1/2
        let score := side * side / (env.treeCount : α)
        let best2 : WithTop α := if (score : WithTop α) < s.bestScore then (score : WithTop α) else s.bestScore
        let stag2 : ℕ := if (score : WithTop α) < s.bestScore then 0 else s.stagnationCount + 1
        ({ s2 with bestScore := best2
                   stagnationCount := stag2
                   currentBounds := bb
                   isProcessingFeedback := false },
         some ⟨bb, score, best2, acc.collisionCount, probX, w, h, side, stag2,
           jm.sqrt (acc.windX * acc.windX + acc.windY * acc.windY) / (env.treeCount : α),
           jm.atan2 acc.windY acc.windX⟩)

/-- The feedback record consumed by
`calculateCompressionProbabilities`; `currentAspect` may be `Infinity`
(`⊤`), as produced by `processFeedbackLoop` for a degenerate box. -/
structure FeedbackData (α : Type*) where
  currentAspect : WithTop α
  width : α
  height : α
deriving DecidableEq

/-- `PhysicsSimulator.calculateCompressionProbabilities(feedbackData)`:
neutral `(1, 1)` unless auto-pack is on and feedback data exists, in which
case the observed aspect is compared against the target aspect and the
fixed asymmetric multipliers `(1.2, 0.8)` / `(0.8, 1.2)` are chosen. -/
def PhysicsSimulator.calculateCompressionProbabilities (env : SimEnv α)
    (feedbackData : Option (FeedbackData α)) : α × α :=
  if env.autoPack then
    match feedbackData with
    | some fd =>
      if (env.targetAspect : WithTop α) < fd.currentAspect then (12/10, 8/10)
      else if fd.currentAspect < (env.targetAspect : WithTop α) then (8/10, 12/10)
      else (1, 1)
    | none => (1, 1)
  else (1, 1)

/-- The buffer sizes (in bytes) held by the `BufferManager`; `none`
models a still-null buffer reference (whose `?.size || 0` reads as 0). -/
structure BufferManagerState where
  treeBufferSize : Option ℕ
  readBufferSize : Option ℕ
deriving DecidableEq

/-- `BufferManager.resizeTreeBuffers(newTreeCount)`: recreate the tree
and read buffers iff the byte size for the new count differs from the
current tree-buffer allocation. -/
def BufferManager.resizeTreeBuffers (b : BufferManagerState) (newTreeCount : ℕ) :
    BufferManagerState × Bool :=
  let currentSize := b.treeBufferSize.getD 0
  let newSize := newTreeCount * FLOATS_PER_TREE * BYTES_PER_FLOAT
  if currentSize ≠ newSize then
    ({ treeBufferSize := some newSize, readBufferSize := some newSize }, true)
  else
    (b, false)

/-- `PhysicsSimulator.handleTreeCountChange(newTreeCount)`: delegate to
the buffer layer and mark for reset exactly when a resize happened. -/
def PhysicsSimulator.handleTreeCountChange (s : PhysicsSimState α) (b : BufferManagerState)
    (newTreeCount : ℕ) : PhysicsSimState α × BufferManagerState × Bool :=
  let r := BufferManager.resizeTreeBuffers b newTreeCount
  (if r.2 then PhysicsSimulator.markForReset s else s, r.1, r.2)

/-- The rotated-and-translated world-space position of polygon vertex `v`
of tree `i`, as computed inside the bounds loop of `updateScore`. -/
def transformVertex (jm : JsMath α) (env : SimEnv α) (i : ℕ) (v : α × α) : α × α :=
  let px := env.data (i * FLOATS_PER_TREE)
  let py := env.data (i * FLOATS_PER_TREE + 1)
  let rot := env.data (i * FLOATS_PER_TREE + 4)
  (px + (v.1 * jm.cos rot - v.2 * jm.sin rot), py + (v.1 * jm.sin rot + v.2 * jm.cos rot))

/-- A point lies inside an axis-aligned bounding box. -/
def InBounds (bb : Bounds α) (q : α × α) : Prop :=
  bb.minX ≤ q.1 ∧ q.1 ≤ bb.maxX ∧ bb.minY ≤ q.2 ∧ q.2 ≤ bb.maxY

end SimDefs

section ParamsThms

variable {α : Type*} [LinearOrderedField α]

/-- The boolean validator of the source agrees with the declared
constraints of the spec. -/
lemma validateParameter_iff (k : String) (v : JsValue α) :
    validateParameter k v = true ↔ SatisfiesConstraint k v := by
  unfold validateParameter constraintsTable SatisfiesConstraint
  split_ifs <;> cases v <;>
    simp [Bool.and_eq_true, Bool.not_eq_true', decide_eq_false_iff_not, not_lt]

/-- C6: for every parameter name and value, `set` returns true iff the
value satisfies the parameter's declared type/range constraint (`NaN`
and wrong-typed values are invalid); on true, `get` afterwards returns
the new value; on false, `get` is unchanged and no observer
notification is emitted. -/
theorem set_validation_invariant (p : SimulationParameters α) (k : String) (v : JsValue α) :
    ((p.set k v).2.1 = true ↔ SatisfiesConstraint k v) ∧
    ((p.set k v).2.1 = true → (p.set k v).1.get k = v) ∧
    ((p.set k v).2.1 = false → (p.set k v).1.get k = p.get k ∧ (p.set k v).2.2 = []) := by
  by_cases hv : validateParameter k v = true
  · simp [SimulationParameters.set, hv, SimulationParameters.get, ← validateParameter_iff]
  · simp [SimulationParameters.set, hv, SimulationParameters.get, ← validateParameter_iff]

/-- Witness for C6 at concrete inputs: `set("treeCount", 7)` succeeds
and stores 7; `set("treeCount", NaN)` leaves the value unchanged and
notifies nobody. -/
theorem set_validation_invariant_witness :
    (((SimulationParameters.init ℚ).set "treeCount" (.num 7)).2.1 = true) ∧
    (((SimulationParameters.init ℚ).set "treeCount" (.num 7)).1.get "treeCount" = .num 7) ∧
    (((SimulationParameters.init ℚ).set "treeCount" .nan).1.get "treeCount" =
      (SimulationParameters.init ℚ).get "treeCount") ∧
    (((SimulationParameters.init ℚ).set "treeCount" .nan).2.2 = []) := by
  have h7 := (set_validation_invariant (SimulationParameters.init ℚ) "treeCount" (.num 7)).1.mpr
    (by norm_num [SatisfiesConstraint])
  have hn := (set_validation_invariant (SimulationParameters.init ℚ) "treeCount" .nan).2.2
    (by decide)
  exact ⟨h7, (set_validation_invariant _ _ _).2.1 h7, hn.1, hn.2⟩

/-- A successful `set` updates the store at the key and emits one
notification exactly when the stored value changed. -/
lemma set_of_valid (p : SimulationParameters α) (k : String) (v : JsValue α)
    (hv : validateParameter k v = true) :
    p.set k v = (⟨fun k2 => if k2 = k then v else p.params k2⟩, true,
      if p.params k = v then [] else [⟨k, v, p.params k⟩]) := by
  simp [SimulationParameters.set, hv]

/-- The reset default for `treeCount` passes validation. -/
lemma validate_default_treeCount : validateParameter (α := α) "treeCount" (.num 10) = true := by
  simp [validateParameter, constraintsTable] <;> norm_num

/-- The reset default for `zoom` passes validation. -/
lemma validate_default_zoom : validateParameter (α := α) "zoom" (.num 2) = true := by
  simp [validateParameter, constraintsTable] <;> norm_num

/-- The reset default for `compression` passes validation. -/
lemma validate_default_compression : validateParameter (α := α) "compression" (.num 1) = true := by
  simp [validateParameter, constraintsTable] <;> norm_num

/-- The reset default for `relaxationRate` passes validation. -/
lemma validate_default_relaxationRate :
    validateParameter (α := α) "relaxationRate" (.num 1) = true := by
  simp [validateParameter, constraintsTable] <;> norm_num

/-- The reset default for `autoPack` passes validation. -/
lemma validate_default_autoPack : validateParameter (α := α) "autoPack" (.boolean true) = true := by
  simp [validateParameter, constraintsTable]

/-- The reset default for `aspect` passes validation. -/
lemma validate_default_aspect : validateParameter (α := α) "aspect" (.num 1) = true := by
  simp [validateParameter, constraintsTable] <;> norm_num

/-- Normal form of `reset`: the six defaulted keys are overwritten and a
notification is emitted per key whose stored value differed, in
`defaults` order; `renderFrequency` is not touched. -/
lemma reset_eq (p : SimulationParameters α) :
    p.reset = (⟨fun k2 =>
        if k2 = "aspect" then .num 1
        else if k2 = "autoPack" then .boolean true
        else if k2 = "relaxationRate" then .num 1
        else if k2 = "compression" then .num 1
        else if k2 = "zoom" then .num 2
        else if k2 = "treeCount" then .num 10
        else p.params k2⟩,
      (if p.params "treeCount" = .num 10 then [] else [⟨"treeCount", .num 10, p.params "treeCount"⟩]) ++
      ((if p.params "zoom" = .num 2 then [] else [⟨"zoom", .num 2, p.params "zoom"⟩]) ++
       ((if p.params "compression" = .num 1 then [] else [⟨"compression", .num 1, p.params "compression"⟩]) ++
        ((if p.params "relaxationRate" = .num 1 then [] else [⟨"relaxationRate", .num 1, p.params "relaxationRate"⟩]) ++
         ((if p.params "autoPack" = .boolean true then [] else [⟨"autoPack", .boolean true, p.params "autoPack"⟩]) ++
          (if p.params "aspect" = .num 1 then [] else [⟨"aspect", .num 1, p.params "aspect"⟩])))))) := by
  simp only [SimulationParameters.reset, resetDefaults, List.foldl]
  rw [set_of_valid _ _ _ validate_default_treeCount]
  simp only []
  rw [set_of_valid _ _ _ validate_default_zoom]
  simp only []
  rw [set_of_valid _ _ _ validate_default_compression]
  simp only []
  rw [set_of_valid _ _ _ validate_default_relaxationRate]
  simp only []
  rw [set_of_valid _ _ _ validate_default_autoPack]
  simp only []
  rw [set_of_valid _ _ _ validate_default_aspect]
  simp only []
  simp [List.append_assoc]

/-- Counterexample for C7 as stated: `reset()` does not restore the
documented default (1) of `renderFrequency` — after setting it to 5,
a reset leaves it at 5, because the `defaults` object inside `reset`
has no `renderFrequency` entry. -/
theorem reset_skips_renderFrequency :
    ((((SimulationParameters.init ℚ).set "renderFrequency" (.num 5)).1.reset).1.get
        "renderFrequency" = .num 5) ∧
    (JsValue.num (5 : ℚ) ≠ .num 1) := by
  have h5 : validateParameter (α := ℚ) "renderFrequency" (.num 5) = true := by decide
  constructor
  · rw [reset_eq]
    simp [SimulationParameters.get, SimulationParameters.set, h5]
  · simp

/-- C7 (amended): `reset()` restores the documented defaults of
`treeCount`, `zoom`, `compression`, `relaxationRate`, `autoPack` and
`aspect`, each routed through `set` so that exactly the fields whose
stored value changes produce an observer notification (in `defaults`
order); `renderFrequency` is not restored — it keeps whatever value
the store held before the call. -/
theorem reset_restores_defaults (p : SimulationParameters α) :
    ((p.reset).1.get "treeCount" = .num 10) ∧
    ((p.reset).1.get "zoom" = .num 2) ∧
    ((p.reset).1.get "compression" = .num 1) ∧
    ((p.reset).1.get "relaxationRate" = .num 1) ∧
    ((p.reset).1.get "autoPack" = .boolean true) ∧
    ((p.reset).1.get "aspect" = .num 1) ∧
    ((p.reset).1.get "renderFrequency" = p.get "renderFrequency") ∧
    ((p.reset).2 =
      (if p.get "treeCount" = .num 10 then [] else [⟨"treeCount", .num 10, p.get "treeCount"⟩]) ++
      ((if p.get "zoom" = .num 2 then [] else [⟨"zoom", .num 2, p.get "zoom"⟩]) ++
       ((if p.get "compression" = .num 1 then [] else [⟨"compression", .num 1, p.get "compression"⟩]) ++
        ((if p.get "relaxationRate" = .num 1 then []
          else [⟨"relaxationRate", .num 1, p.get "relaxationRate"⟩]) ++
         ((if p.get "autoPack" = .boolean true then []
           else [⟨"autoPack", .boolean true, p.get "autoPack"⟩]) ++
          (if p.get "aspect" = .num 1 then [] else [⟨"aspect", .num 1, p.get "aspect"⟩])))))) := by
  rw [reset_eq]
  refine ⟨?_, ?_, ?_, ?_, ?_, ?_, ?_, ?_⟩ <;> simp [SimulationParameters.get]

/-- C10: the produced uniform block never depends on `deltaTime` (for
any two values, `NaN` included) nor on `probY`/`centerX`/`centerY`; it
is determined by `zoom`, `compression`, the `probX` override,
`frameCount` and `aspect`, both for `getUniforms` and for the
`updateUniforms` pass-through. -/
theorem getUniforms_ignores_deltaTime (p q : SimulationParameters α) (d1 d2 : JsValue α)
    (frameCount : α) (ap aq : AdditionalParams α)
    (hz : p.get "zoom" = q.get "zoom") (hc : p.get "compression" = q.get "compression")
    (ha : p.get "aspect" = q.get "aspect") (hp : ap.probX = aq.probX) :
    p.getUniforms d1 frameCount ap = q.getUniforms d2 frameCount aq ∧
    PhysicsSimulator.updateUniforms p d1 frameCount ap =
      PhysicsSimulator.updateUniforms q d2 frameCount aq := by
  simp only [SimulationParameters.get] at hz hc ha
  constructor
  · simp [SimulationParameters.getUniforms, hz, hc, ha, hp]
  · simp [PhysicsSimulator.updateUniforms, SimulationParameters.getUniforms, hz, hc, ha, hp]

/-- Witness for C10: a `NaN` and a finite `deltaTime` produce the same
uniform block on the default store. -/
theorem getUniforms_ignores_deltaTime_witness :
    (SimulationParameters.init ℚ).getUniforms .nan 42 ⟨none, none, none, none⟩ =
      (SimulationParameters.init ℚ).getUniforms (.num (16/1000)) 42 ⟨none, none, none, none⟩ ∧
    PhysicsSimulator.updateUniforms (SimulationParameters.init ℚ) .nan 42
        ⟨none, none, none, none⟩ =
      PhysicsSimulator.updateUniforms (SimulationParameters.init ℚ) (.num (16/1000)) 42
        ⟨none, none, none, none⟩ :=
  getUniforms_ignores_deltaTime _ _ _ _ _ _ _ rfl rfl rfl rfl

/-- C4: `calculateCompressionProbabilities` is neutral `(1, 1)` when
auto-pack is off or no feedback data exists; otherwise it compares the
observed aspect with the target and returns `(1.2, 0.8)` when wider
than target, `(0.8, 1.2)` when taller, and `(1, 1)` on an exact
match. -/
theorem calculateCompressionProbabilities_spec (env : SimEnv α) (fd : Option (FeedbackData α)) :
    ((env.autoPack = false ∨ fd = none) →
      PhysicsSimulator.calculateCompressionProbabilities env fd = (1, 1)) ∧
    (∀ d, env.autoPack = true → fd = some d →
      (((env.targetAspect : WithTop α) < d.currentAspect →
          PhysicsSimulator.calculateCompressionProbabilities env fd = (12/10, 8/10)) ∧
       (d.currentAspect < (env.targetAspect : WithTop α) →
          PhysicsSimulator.calculateCompressionProbabilities env fd = (8/10, 12/10)) ∧
       (d.currentAspect = (env.targetAspect : WithTop α) →
          PhysicsSimulator.calculateCompressionProbabilities env fd = (1, 1)))) := by
  unfold PhysicsSimulator.calculateCompressionProbabilities
  constructor
  · rintro (h | h) <;> simp [h]
  · rintro d hA rfl
    simp only [hA, if_true]
    refine ⟨fun h => by simp [h], fun h => ?_, fun h => ?_⟩
    · rw [if_neg (asymm h), if_pos h]
    · simp [h, lt_irrefl]

/-- Witness for C4, the spec's concrete scenario: with target aspect 1
and auto-pack on, `currentAspect = 2` yields `(1.2, 0.8)`,
`currentAspect = 0.5` yields `(0.8, 1.2)`, `currentAspect = 1` yields
`(1, 1)`; with auto-pack off the result is neutral. -/
theorem calculateCompressionProbabilities_spec_witness :
    (PhysicsSimulator.calculateCompressionProbabilities
        (⟨0, [], fun _ => 0, fun _ => 0, 0, true, 1⟩ : SimEnv ℚ)
        (some ⟨((2 : ℚ) : WithTop ℚ), 2, 1⟩) = (12/10, 8/10)) ∧
    (PhysicsSimulator.calculateCompressionProbabilities
        (⟨0, [], fun _ => 0, fun _ => 0, 0, true, 1⟩ : SimEnv ℚ)
        (some ⟨((1/2 : ℚ) : WithTop ℚ), 2, 1⟩) = (8/10, 12/10)) ∧
    (PhysicsSimulator.calculateCompressionProbabilities
        (⟨0, [], fun _ => 0, fun _ => 0, 0, true, 1⟩ : SimEnv ℚ)
        (some ⟨((1 : ℚ) : WithTop ℚ), 2, 1⟩) = (1, 1)) ∧
    (PhysicsSimulator.calculateCompressionProbabilities
        (⟨0, [], fun _ => 0, fun _ => 0, 0, false, 1⟩ : SimEnv ℚ) none = (1, 1)) :=
  ⟨((calculateCompressionProbabilities_spec _ _).2 _ rfl rfl).1
      (by show ((1 : ℚ) : WithTop ℚ) < ((2 : ℚ) : WithTop ℚ)
          exact_mod_cast (by norm_num : (1 : ℚ) < 2)),
   ((calculateCompressionProbabilities_spec _ _).2 _ rfl rfl).2.1
      (by show ((1/2 : ℚ) : WithTop ℚ) < ((1 : ℚ) : WithTop ℚ)
          exact_mod_cast (by norm_num : (1/2 : ℚ) < 1)),
   ((calculateCompressionProbabilities_spec _ _).2 _ rfl rfl).2.2 rfl,
   (calculateCompressionProbabilities_spec _ _).1 (Or.inl rfl)⟩

end ParamsThms

section SimulatorThms

variable {α : Type*} [LinearOrderedField α]

/-- C1: at most one feedback pass is outstanding — a call that observes
the in-flight flag returns `null` at once and changes nothing at all
(in particular `bestScore` and `stagnationCount`), and any call that
actually enters a pass leaves the in-flight flag cleared on every exit
path (success, empty bounds, or the caught buffer-underflow error). -/
theorem updateScore_single_flight (s : PhysicsSimState α) (jm : JsMath α) (env : SimEnv α) :
    (s.isProcessingFeedback = true → PhysicsSimulator.updateScore s jm env = (s, none)) ∧
    (s.isProcessingFeedback = false →
      (PhysicsSimulator.updateScore s jm env).1.isProcessingFeedback = false) := by
  constructor
  · intro h
    simp [PhysicsSimulator.updateScore, h]
  · intro h
    unfold PhysicsSimulator.updateScore
    rw [if_neg (by simp [h])]
    by_cases hl : env.len < env.treeCount * FLOATS_PER_TREE
    · simp [hl]
    · simp only [hl, if_false]
      cases hb : (scoreLoop jm env env.treeCount).bounds <;> simp [hb]

/-- Witness for C1: a call on an in-flight state is an exact no-op, and
a completed pass from an idle state ends with the flag cleared. -/
theorem updateScore_single_flight_witness :
    PhysicsSimulator.updateScore (⟨⟨-1, 1, -1, 1⟩, false, true, ⊤, 0, false⟩ : PhysicsSimState ℚ)
        ⟨fun _ => 1, fun _ => 0, fun x => x, fun _ _ => 0, 0⟩
        ⟨1, [(0, 0)], fun _ => 0, fun _ => 0, 8, true, 1⟩ =
      (⟨⟨-1, 1, -1, 1⟩, false, true, ⊤, 0, false⟩, none) ∧
    (PhysicsSimulator.updateScore (PhysicsSimState.start ℚ)
        ⟨fun _ => 1, fun _ => 0, fun x => x, fun _ _ => 0, 0⟩
        ⟨1, [(0, 0)], fun _ => 0, fun _ => 0, 8, true, 1⟩).1.isProcessingFeedback = false :=
  ⟨(updateScore_single_flight _ _ _).1 rfl, (updateScore_single_flight _ _ _).2 rfl⟩

/-- C2 records a code bug: on the buffer-underflow path (here a mapped
length of 0 for one expected record) the pass aborts with a logged
error and a `null` result and clears the in-flight flag, but the
staging buffer is left mapped — the source throws at the length check
before `readBuffer.unmap()`, and neither `catch` nor `finally`
unmaps, contradicting the spec's requirement that the mapping is
released on every exit path. -/
theorem updateScore_underflow_leaves_mapped :
    (PhysicsSimulator.updateScore (PhysicsSimState.start ℚ)
        ⟨fun _ => 1, fun _ => 0, fun x => x, fun _ _ => 0, 0⟩
        ⟨1, [(0, 0)], fun _ => 0, fun _ => 0, 0, true, 1⟩).1.readBufferMapped = true ∧
    (PhysicsSimulator.updateScore (PhysicsSimState.start ℚ)
        ⟨fun _ => 1, fun _ => 0, fun x => x, fun _ _ => 0, 0⟩
        ⟨1, [(0, 0)], fun _ => 0, fun _ => 0, 0, true, 1⟩).2 = none ∧
    (PhysicsSimulator.updateScore (PhysicsSimState.start ℚ)
        ⟨fun _ => 1, fun _ => 0, fun x => x, fun _ _ => 0, 0⟩
        ⟨1, [(0, 0)], fun _ => 0, fun _ => 0, 0, true, 1⟩).1.isProcessingFeedback = false := by
  refine ⟨?_, ?_, ?_⟩ <;> decide

/-- C8: `handleTreeCountChange(n)` reallocates iff the byte size for
`n` records (`n * 8 * 4`) differs from the current allocation; when it
does it marks the pending-reset flag and returns true, and a second
call with the same `n` returns false and leaves both the simulator
state (hence the pending-reset flag) and the buffers untouched. -/
theorem handleTreeCountChange_spec (s : PhysicsSimState α) (b : BufferManagerState) (n : ℕ) :
    ((PhysicsSimulator.handleTreeCountChange s b n).2.2 = true ↔
      n * 8 * 4 ≠ b.treeBufferSize.getD 0) ∧
    ((PhysicsSimulator.handleTreeCountChange s b n).2.2 = true →
      PhysicsSimulator.needsResetSimulation (PhysicsSimulator.handleTreeCountChange s b n).1 =
        true) ∧
    ((PhysicsSimulator.handleTreeCountChange s b n).2.2 = false →
      (PhysicsSimulator.handleTreeCountChange s b n).1 = s) ∧
    (PhysicsSimulator.handleTreeCountChange (PhysicsSimulator.handleTreeCountChange s b n).1
        (PhysicsSimulator.handleTreeCountChange s b n).2.1 n =
      ((PhysicsSimulator.handleTreeCountChange s b n).1,
       (PhysicsSimulator.handleTreeCountChange s b n).2.1, false)) := by
  unfold PhysicsSimulator.handleTreeCountChange BufferManager.resizeTreeBuffers
    PhysicsSimulator.markForReset PhysicsSimulator.needsResetSimulation
  by_cases hc : b.treeBufferSize.getD 0 ≠ n * FLOATS_PER_TREE * BYTES_PER_FLOAT
  · simp only [FLOATS_PER_TREE, BYTES_PER_FLOAT] at hc ⊢
    simp [hc, Ne.symm hc]
  · simp only [FLOATS_PER_TREE, BYTES_PER_FLOAT] at hc ⊢
    push_neg at hc
    simp [hc]

/-- Witness for C8: growing from unallocated buffers to 2 records marks
the pending reset, and repeating the same count is a no-op returning
false. -/
theorem handleTreeCountChange_spec_witness :
    PhysicsSimulator.needsResetSimulation
        (PhysicsSimulator.handleTreeCountChange (PhysicsSimState.start ℚ) ⟨none, none⟩ 2).1 =
      true ∧
    (PhysicsSimulator.handleTreeCountChange
        (PhysicsSimulator.handleTreeCountChange (PhysicsSimState.start ℚ) ⟨none, none⟩ 2).1
        (PhysicsSimulator.handleTreeCountChange (PhysicsSimState.start ℚ) ⟨none, none⟩ 2).2.1
        2).2.2 = false :=
  ⟨(handleTreeCountChange_spec _ _ _).2.1 (by decide),
   by rw [(handleTreeCountChange_spec (PhysicsSimState.start ℚ) ⟨none, none⟩ 2).2.2.2]⟩

end SimulatorThms

section ResetThms

variable {α : Type*} [LinearOrderedField α]

/-- The reset loop writes exactly `n * 8` lanes. -/
lemma resetData_length (jm : JsMath α) (env : SimEnv α) :
    ∀ n, (resetData jm env n).length = n * 8 := by
  intro n
  induction n with
  | zero => simp [resetData]
  | succ n ih =>
    simp [resetData, resetRecord, ih]
    omega

/-- Lane `k` of record `i` of the reset array is lane `k` of that
record. -/
lemma resetData_getD (jm : JsMath α) (env : SimEnv α) :
    ∀ n i k, i < n → k < 8 →
      (resetData jm env n).getD (8 * i + k) 0 = (resetRecord jm env i).getD k 0 := by
  intro n
  induction n with
  | zero => omega
  | succ n ih =>
    intro i k hi hk
    rcases Nat.lt_succ_iff_lt_or_eq.mp hi with h | h
    · rw [resetData, List.getD_append]
      · exact ih i k h hk
      · rw [resetData_length]
        omega
    · subst h
      rw [resetData, List.getD_append_right]
      · rw [resetData_length]
        congr 1
        omega
      · rw [resetData_length]
        omega

/-- C5: after `reset()` the written array has length `treeCount * 8`;
in every record the velocity, angular-velocity, collision and padding
lanes are exactly 0, the rotation lane lies in `[0, 2π)` and both
position lanes lie within `±spread/2` for
`spread = sqrt(treeCount) * 2`; `bestScore` is reset to `+∞` (`⊤`),
`stagnationCount` to 0, and the pending-reset flag is cleared.  The
model is a total function, so `reset` cannot throw, for `treeCount = 0`
included (the quantifier over records is then vacuous and the written
array is empty). -/
theorem reset_spec (s : PhysicsSimState ℝ) (jm : JsMath ℝ) (env : SimEnv ℝ)
    (hsq : jm.sqrt = Real.sqrt) (hrand : ∀ n, 0 ≤ env.rand n ∧ env.rand n < 1) :
    ((PhysicsSimulator.reset s jm env).2.length = env.treeCount * 8) ∧
    (∀ i < env.treeCount,
      ((PhysicsSimulator.reset s jm env).2.getD (8 * i + 2) 0 = 0 ∧
       (PhysicsSimulator.reset s jm env).2.getD (8 * i + 3) 0 = 0 ∧
       (PhysicsSimulator.reset s jm env).2.getD (8 * i + 5) 0 = 0 ∧
       (PhysicsSimulator.reset s jm env).2.getD (8 * i + 6) 0 = 0 ∧
       (PhysicsSimulator.reset s jm env).2.getD (8 * i + 7) 0 = 0) ∧
      (0 ≤ (PhysicsSimulator.reset s jm env).2.getD (8 * i + 4) 0 ∧
       (PhysicsSimulator.reset s jm env).2.getD (8 * i + 4) 0 < 2 * Real.pi) ∧
      (|(PhysicsSimulator.reset s jm env).2.getD (8 * i) 0| ≤ Real.sqrt env.treeCount * 2 / 2 ∧
       |(PhysicsSimulator.reset s jm env).2.getD (8 * i + 1) 0| ≤ Real.sqrt env.treeCount * 2 / 2)) ∧
    ((PhysicsSimulator.reset s jm env).1.bestScore = ⊤) ∧
    ((PhysicsSimulator.reset s jm env).1.stagnationCount = 0) ∧
    ((PhysicsSimulator.reset s jm env).1.needsReset = false) := by
  unfold PhysicsSimulator.reset
  refine ⟨resetData_length jm env env.treeCount, ?_, rfl, rfl, rfl⟩
  intro i hi
  have hs2 : (0:ℝ) ≤ Real.sqrt (env.treeCount : ℝ) * 2 := by
    have := Real.sqrt_nonneg (env.treeCount : ℝ)
    linarith
  have posBound : ∀ m, |(env.rand m - 1/2) * (jm.sqrt (env.treeCount : ℝ) * 2)| ≤
      Real.sqrt (env.treeCount : ℝ) * 2 / 2 := by
    intro m
    obtain ⟨h0, h1⟩ := hrand m
    rw [hsq, abs_mul, abs_of_nonneg hs2]
    have habs : |env.rand m - 1/2| ≤ 1/2 := abs_le.mpr ⟨by linarith, by linarith⟩
    calc |env.rand m - 1/2| * (Real.sqrt (env.treeCount : ℝ) * 2)
        ≤ 1/2 * (Real.sqrt (env.treeCount : ℝ) * 2) := mul_le_mul_of_nonneg_right habs hs2
      _ = Real.sqrt (env.treeCount : ℝ) * 2 / 2 := by ring
  refine ⟨⟨?_, ?_, ?_, ?_, ?_⟩, ⟨?_, ?_⟩, ?_, ?_⟩
  · rw [resetData_getD jm env env.treeCount i 2 hi (by norm_num)]; rfl
  · rw [resetData_getD jm env env.treeCount i 3 hi (by norm_num)]; rfl
  · rw [resetData_getD jm env env.treeCount i 5 hi (by norm_num)]; rfl
  · rw [resetData_getD jm env env.treeCount i 6 hi (by norm_num)]; rfl
  · rw [resetData_getD jm env env.treeCount i 7 hi (by norm_num)]; rfl
  · rw [resetData_getD jm env env.treeCount i 4 hi (by norm_num)]
    show (0:ℝ) ≤ env.rand (3 * i + 2) * (628/100)
    have := (hrand (3 * i + 2)).1
    positivity
  · rw [resetData_getD jm env env.treeCount i 4 hi (by norm_num)]
    show env.rand (3 * i + 2) * (628/100) < 2 * Real.pi
    obtain ⟨h0, h1⟩ := hrand (3 * i + 2)
    have hpi := Real.pi_gt_3141592
    nlinarith
  · have e : (resetData jm env env.treeCount).getD (8 * i) 0 = (resetRecord jm env i).getD 0 0 :=
      resetData_getD jm env env.treeCount i 0 hi (by norm_num)
    rw [e]
    exact posBound (3 * i)
  · rw [resetData_getD jm env env.treeCount i 1 hi (by norm_num)]
    exact posBound (3 * i + 1)

/-- Witness for C5 at `treeCount = 1` with the real `sqrt` and a
constant-zero random stream. -/
theorem reset_spec_witness :
    ((PhysicsSimulator.reset (PhysicsSimState.start ℝ)
        ⟨Real.cos, Real.sin, Real.sqrt, fun _ _ => 0, Real.pi⟩
        ⟨1, [(0, 0)], fun _ => 0, fun _ => 0, 8, true, 1⟩).2.length = 1 * 8) ∧
    ((PhysicsSimulator.reset (PhysicsSimState.start ℝ)
        ⟨Real.cos, Real.sin, Real.sqrt, fun _ _ => 0, Real.pi⟩
        ⟨1, [(0, 0)], fun _ => 0, fun _ => 0, 8, true, 1⟩).1.bestScore = ⊤) := by
  have h := reset_spec (PhysicsSimState.start ℝ)
    ⟨Real.cos, Real.sin, Real.sqrt, fun _ _ => 0, Real.pi⟩
    ⟨1, [(0, 0)], fun _ => 0, fun _ => 0, 8, true, 1⟩ rfl
    (fun n => by norm_num)
  exact ⟨h.1, h.2.2.1⟩

end ResetThms

section BoundsLemmas

variable {α : Type*} [LinearOrderedField α]

/-- The bounds accumulated by one tree step are a fold of
`boundsStep` over that tree's transformed polygon vertices. -/
lemma treeStep_bounds (jm : JsMath α) (env : SimEnv α) (acc : ScoreAcc α) (i : ℕ) :
    (treeStep jm env acc i).bounds =
      (env.polygon.map (transformVertex jm env i)).foldl boundsStep acc.bounds := by
  simp [treeStep, transformVertex, boundsStep, List.foldl_map]

/-- Folding points into an existing box yields a box that still
contains everything the old box contained, contains every folded
point, and each of whose four sides is attained either by the old box
or by a folded point. -/
lemma foldl_boundsStep_some (l : List (α × α)) (bb0 : Bounds α) :
    ∃ bb : Bounds α, l.foldl boundsStep (some bb0) = some bb ∧
      (∀ q, InBounds bb0 q → InBounds bb q) ∧
      (∀ q ∈ l, InBounds bb q) ∧
      ((bb.minX = bb0.minX ∨ ∃ q ∈ l, q.1 = bb.minX) ∧
       (bb.maxX = bb0.maxX ∨ ∃ q ∈ l, q.1 = bb.maxX) ∧
       (bb.minY = bb0.minY ∨ ∃ q ∈ l, q.2 = bb.minY) ∧
       (bb.maxY = bb0.maxY ∨ ∃ q ∈ l, q.2 = bb.maxY)) := by
  induction l generalizing bb0 with
  | nil => exact ⟨bb0, rfl, fun q h => h, by simp, by simp⟩
  | cons q0 rest ih =>
    obtain ⟨bb, hf, hmono, hmem, hatt⟩ :=
      ih ⟨min bb0.minX q0.1, max bb0.maxX q0.1, min bb0.minY q0.2, max bb0.maxY q0.2⟩
    have hstep : (q0 :: rest).foldl boundsStep (some bb0) =
        rest.foldl boundsStep
          (some ⟨min bb0.minX q0.1, max bb0.maxX q0.1, min bb0.minY q0.2, max bb0.maxY q0.2⟩) := rfl
    have hmono0 : ∀ q, InBounds bb0 q →
        InBounds (⟨min bb0.minX q0.1, max bb0.maxX q0.1, min bb0.minY q0.2, max bb0.maxY q0.2⟩ :
          Bounds α) q := by
      rintro q ⟨h1, h2, h3, h4⟩
      exact ⟨le_trans (min_le_left _ _) h1, le_trans h2 (le_max_left _ _),
        le_trans (min_le_left _ _) h3, le_trans h4 (le_max_left _ _)⟩
    have hq0 : InBounds (⟨min bb0.minX q0.1, max bb0.maxX q0.1, min bb0.minY q0.2,
        max bb0.maxY q0.2⟩ : Bounds α) q0 :=
      ⟨min_le_right _ _, le_max_right _ _, min_le_right _ _, le_max_right _ _⟩
    refine ⟨bb, hstep.trans hf, fun q hq => hmono q (hmono0 q hq), ?_, ?_⟩
    · intro q hq
      rcases List.mem_cons.mp hq with rfl | hq
      · exact hmono q hq0
      · exact hmem q hq
    · obtain ⟨a1, a2, a3, a4⟩ := hatt
      refine ⟨?_, ?_, ?_, ?_⟩
      · rcases a1 with h | ⟨q, hq, e⟩
        · rcases min_choice bb0.minX q0.1 with hm | hm
          · exact Or.inl (h.trans hm)
          · exact Or.inr ⟨q0, List.mem_cons_self _ _, (h.trans hm).symm⟩
        · exact Or.inr ⟨q, List.mem_cons_of_mem _ hq, e⟩
      · rcases a2 with h | ⟨q, hq, e⟩
        · rcases max_choice bb0.maxX q0.1 with hm | hm
          · exact Or.inl (h.trans hm)
          · exact Or.inr ⟨q0, List.mem_cons_self _ _, (h.trans hm).symm⟩
        · exact Or.inr ⟨q, List.mem_cons_of_mem _ hq, e⟩
      · rcases a3 with h | ⟨q, hq, e⟩
        · rcases min_choice bb0.minY q0.2 with hm | hm
          · exact Or.inl (h.trans hm)
          · exact Or.inr ⟨q0, List.mem_cons_self _ _, (h.trans hm).symm⟩
        · exact Or.inr ⟨q, List.mem_cons_of_mem _ hq, e⟩
      · rcases a4 with h | ⟨q, hq, e⟩
        · rcases max_choice bb0.maxY q0.2 with hm | hm
          · exact Or.inl (h.trans hm)
          · exact Or.inr ⟨q0, List.mem_cons_self _ _, (h.trans hm).symm⟩
        · exact Or.inr ⟨q, List.mem_cons_of_mem _ hq, e⟩

/-- The bounds fold returns the empty (`±Infinity`) bounds only when it
started empty and had no points to fold. -/
lemma foldl_boundsStep_none_iff (l : List (α × α)) (b : Option (Bounds α)) :
    l.foldl boundsStep b = none ↔ b = none ∧ l = [] := by
  cases l with
  | nil => simp
  | cons q0 rest =>
    simp only [List.foldl_cons]
    constructor
    · intro h
      exfalso
      have hsome : ∃ bb0, boundsStep b q0 = some bb0 := by
        cases b with
        | none => exact ⟨_, rfl⟩
        | some bb => exact ⟨_, rfl⟩
      obtain ⟨bb0, hb0⟩ := hsome
      rw [hb0] at h
      obtain ⟨bb, hf, -⟩ := foldl_boundsStep_some rest bb0
      rw [hf] at h
      exact Option.some_ne_none bb h
    · rintro ⟨-, h⟩
      exact absurd h (List.cons_ne_nil _ _)

end BoundsLemmas

section ScoreLoopLemmas

variable {α : Type*} [LinearOrderedField α]

/-- The per-tree loop ends with empty bounds only when the polygon is
empty or no tree was processed. -/
lemma scoreLoop_bounds_none (jm : JsMath α) (env : SimEnv α) :
    ∀ n, (scoreLoop jm env n).bounds = none → env.polygon = [] ∨ n = 0 := by
  intro n h
  cases n with
  | zero => exact Or.inr rfl
  | succ n =>
    rw [scoreLoop, treeStep_bounds, foldl_boundsStep_none_iff] at h
    exact Or.inl (List.map_eq_nil.mp h.2)

/-- The box computed by the per-tree loop contains every
rotated-and-translated polygon vertex of every processed tree, and
each of its four sides is attained by one of those vertices. -/
lemma scoreLoop_bounds_spec (jm : JsMath α) (env : SimEnv α) :
    ∀ n bb, (scoreLoop jm env n).bounds = some bb →
      (∀ i < n, ∀ v ∈ env.polygon, InBounds bb (transformVertex jm env i v)) ∧
      ((∃ i < n, ∃ v ∈ env.polygon, (transformVertex jm env i v).1 = bb.minX) ∧
       (∃ i < n, ∃ v ∈ env.polygon, (transformVertex jm env i v).1 = bb.maxX) ∧
       (∃ i < n, ∃ v ∈ env.polygon, (transformVertex jm env i v).2 = bb.minY) ∧
       (∃ i < n, ∃ v ∈ env.polygon, (transformVertex jm env i v).2 = bb.maxY)) := by
  intro n
  induction n with
  | zero => intro bb h; exact absurd h (by simp [scoreLoop])
  | succ n ih =>
    intro bb h
    rw [scoreLoop, treeStep_bounds] at h
    cases hb : (scoreLoop jm env n).bounds with
    | none =>
      rw [hb] at h
      cases hp : env.polygon with
      | nil => rw [hp] at h; simp at h
      | cons p0 ps =>
        simp only [hp] at h ⊢
        simp only [List.map_cons, List.foldl_cons] at h
        have hstep : boundsStep (none : Option (Bounds α)) (transformVertex jm env n p0) =
            some ⟨(transformVertex jm env n p0).1, (transformVertex jm env n p0).1,
              (transformVertex jm env n p0).2, (transformVertex jm env n p0).2⟩ := rfl
        rw [hstep] at h
        obtain ⟨bb2, hf, hmono, hmem, hatt⟩ :=
          foldl_boundsStep_some (ps.map (transformVertex jm env n))
            ⟨(transformVertex jm env n p0).1, (transformVertex jm env n p0).1,
              (transformVertex jm env n p0).2, (transformVertex jm env n p0).2⟩
        rw [hf] at h
        obtain rfl : bb2 = bb := Option.some_injective _ h
        have hn0 : n = 0 := by
          rcases scoreLoop_bounds_none jm env n hb with hpoly | hn
          · rw [hp] at hpoly; exact absurd hpoly (List.cons_ne_nil _ _)
          · exact hn
        subst hn0
        have hcont : ∀ v ∈ p0 :: ps, InBounds bb2 (transformVertex jm env 0 v) := by
          intro v hv
          rcases List.mem_cons.mp hv with rfl | hv
          · exact hmono _ ⟨le_refl _, le_refl _, le_refl _, le_refl _⟩
          · exact hmem _ (List.mem_map_of_mem _ hv)
        refine ⟨?_, ?_, ?_, ?_, ?_⟩
        · intro i hi v hv
          interval_cases i
          exact hcont v hv
        · rcases hatt.1 with hA | ⟨q, hq, e⟩
          · exact ⟨0, Nat.zero_lt_one, p0, List.mem_cons_self _ _, hA.symm⟩
          · obtain ⟨v, hv, rfl⟩ := List.mem_map.mp hq
            exact ⟨0, Nat.zero_lt_one, v, List.mem_cons_of_mem _ hv, e⟩
        · rcases hatt.2.1 with hA | ⟨q, hq, e⟩
          · exact ⟨0, Nat.zero_lt_one, p0, List.mem_cons_self _ _, hA.symm⟩
          · obtain ⟨v, hv, rfl⟩ := List.mem_map.mp hq
            exact ⟨0, Nat.zero_lt_one, v, List.mem_cons_of_mem _ hv, e⟩
        · rcases hatt.2.2.1 with hA | ⟨q, hq, e⟩
          · exact ⟨0, Nat.zero_lt_one, p0, List.mem_cons_self _ _, hA.symm⟩
          · obtain ⟨v, hv, rfl⟩ := List.mem_map.mp hq
            exact ⟨0, Nat.zero_lt_one, v, List.mem_cons_of_mem _ hv, e⟩
        · rcases hatt.2.2.2 with hA | ⟨q, hq, e⟩
          · exact ⟨0, Nat.zero_lt_one, p0, List.mem_cons_self _ _, hA.symm⟩
          · obtain ⟨v, hv, rfl⟩ := List.mem_map.mp hq
            exact ⟨0, Nat.zero_lt_one, v, List.mem_cons_of_mem _ hv, e⟩
    | some bbn =>
      rw [hb] at h
      obtain ⟨hcontN, hattN⟩ := ih bbn hb
      obtain ⟨bb2, hf, hmono, hmem, hatt⟩ :=
        foldl_boundsStep_some (env.polygon.map (transformVertex jm env n)) bbn
      rw [hf] at h
      obtain rfl : bb2 = bb := Option.some_injective _ h
      refine ⟨?_, ?_, ?_, ?_, ?_⟩
      · intro i hi v hv
        rcases Nat.lt_succ_iff_lt_or_eq.mp hi with hi | rfl
        · exact hmono _ (hcontN i hi v hv)
        · exact hmem _ (List.mem_map_of_mem _ hv)
      · rcases hatt.1 with hA | ⟨q, hq, e⟩
        · obtain ⟨i, hi, v, hv, e⟩ := hattN.1
          exact ⟨i, Nat.lt_succ_of_lt hi, v, hv, by rw [e, hA]⟩
        · obtain ⟨v, hv, rfl⟩ := List.mem_map.mp hq
          exact ⟨n, Nat.lt_succ_self _, v, hv, e⟩
      · rcases hatt.2.1 with hA | ⟨q, hq, e⟩
        · obtain ⟨i, hi, v, hv, e⟩ := hattN.2.1
          exact ⟨i, Nat.lt_succ_of_lt hi, v, hv, by rw [e, hA]⟩
        · obtain ⟨v, hv, rfl⟩ := List.mem_map.mp hq
          exact ⟨n, Nat.lt_succ_self _, v, hv, e⟩
      · rcases hatt.2.2.1 with hA | ⟨q, hq, e⟩
        · obtain ⟨i, hi, v, hv, e⟩ := hattN.2.2.1
          exact ⟨i, Nat.lt_succ_of_lt hi, v, hv, by rw [e, hA]⟩
        · obtain ⟨v, hv, rfl⟩ := List.mem_map.mp hq
          exact ⟨n, Nat.lt_succ_self _, v, hv, e⟩
      · rcases hatt.2.2.2 with hA | ⟨q, hq, e⟩
        · obtain ⟨i, hi, v, hv, e⟩ := hattN.2.2.2
          exact ⟨i, Nat.lt_succ_of_lt hi, v, hv, by rw [e, hA]⟩
        · obtain ⟨v, hv, rfl⟩ := List.mem_map.mp hq
          exact ⟨n, Nat.lt_succ_self _, v, hv, e⟩

end ScoreLoopLemmas

section ScoreThms

variable {α : Type*} [LinearOrderedField α]

/-- Inversion of a completed scoring pass: the snapshot's bounds are
the loop's bounds, and its `width`/`height`/`side`/`score`/`probX` and
the updated `bestScore`/`stagnationCount` are exactly the source's
formulas over them. -/
lemma updateScore_some_inv (s s' : PhysicsSimState α) (jm : JsMath α) (env : SimEnv α)
    (snap : ScoreSnapshot α)
    (h : PhysicsSimulator.updateScore s jm env = (s', some snap)) :
    (scoreLoop jm env env.treeCount).bounds = some snap.bounds ∧
    snap.width = snap.bounds.maxX - snap.bounds.minX ∧
    snap.height = snap.bounds.maxY - snap.bounds.minY ∧
    snap.side = max snap.width snap.height ∧
    snap.score = snap.side * snap.side / (env.treeCount : α) ∧
    snap.probX = (if 0 < snap.width + snap.height then
      snap.width / (snap.width + snap.height) else 1/2) ∧
    s'.bestScore = (if (snap.score : WithTop α) < s.bestScore then
      (snap.score : WithTop α) else s.bestScore) ∧
    s'.stagnationCount = (if (snap.score : WithTop α) < s.bestScore then 0
      else s.stagnationCount + 1) ∧
    snap.bestScore = s'.bestScore ∧
    snap.stagnationCount = s'.stagnationCount := by
  unfold PhysicsSimulator.updateScore at h
  by_cases hf : s.isProcessingFeedback
  · rw [if_pos hf] at h
    exact absurd (congrArg Prod.snd h) (by simp)
  · rw [if_neg hf] at h
    by_cases hl : env.len < env.treeCount * FLOATS_PER_TREE
    · rw [if_pos hl] at h
      exact absurd (congrArg Prod.snd h) (by simp)
    · rw [if_neg hl] at h
      dsimp only at h
      cases hb : (scoreLoop jm env env.treeCount).bounds with
      | none =>
        rw [hb] at h
        exact absurd (congrArg Prod.snd h) (by simp)
      | some bb =>
        rw [hb] at h
        have h2 := congrArg Prod.snd h
        simp only at h2
        obtain rfl : _ = snap := Option.some_injective _ h2
        have h1 := congrArg Prod.fst h
        simp only at h1
        rw [← h1]
        refine ⟨?_, rfl, rfl, rfl, rfl, rfl, rfl, rfl, rfl, rfl⟩
        rfl

/-- C3: every completed scoring pass returns a snapshot whose bounds
are the axis-aligned box over every polygon vertex of every object
after rotation and translation (all vertices inside, all four sides
attained), with `score = side * side / treeCount` for
`side = max(width, height)` and
`probX = width / (width + height)` when `width + height > 0`,
else `0.5`. -/
theorem updateScore_score_spec (s s' : PhysicsSimState α) (jm : JsMath α) (env : SimEnv α)
    (snap : ScoreSnapshot α)
    (h : PhysicsSimulator.updateScore s jm env = (s', some snap)) :
    (∀ i < env.treeCount, ∀ v ∈ env.polygon, InBounds snap.bounds (transformVertex jm env i v)) ∧
    (∃ i < env.treeCount, ∃ v ∈ env.polygon,
      (transformVertex jm env i v).1 = snap.bounds.minX) ∧
    (∃ i < env.treeCount, ∃ v ∈ env.polygon,
      (transformVertex jm env i v).1 = snap.bounds.maxX) ∧
    (∃ i < env.treeCount, ∃ v ∈ env.polygon,
      (transformVertex jm env i v).2 = snap.bounds.minY) ∧
    (∃ i < env.treeCount, ∃ v ∈ env.polygon,
      (transformVertex jm env i v).2 = snap.bounds.maxY) ∧
    snap.width = snap.bounds.maxX - snap.bounds.minX ∧
    snap.height = snap.bounds.maxY - snap.bounds.minY ∧
    snap.score = max snap.width snap.height * max snap.width snap.height / (env.treeCount : α) ∧
    snap.probX = (if 0 < snap.width + snap.height then
      snap.width / (snap.width + snap.height) else 1/2) := by
  obtain ⟨hb, hw, hh, hside, hscore, hprob, -⟩ := updateScore_some_inv s s' jm env snap h
  obtain ⟨hcont, hatt⟩ := scoreLoop_bounds_spec jm env env.treeCount snap.bounds hb
  refine ⟨hcont, hatt.1, hatt.2.1, hatt.2.2.1, hatt.2.2.2, hw, hh, ?_, hprob⟩
  rw [hscore, hside]

/-- C9: `bestScore` never increases across `updateScore`, and for every
completed pass the stagnation counter is incremented iff the new score
is not strictly below the previous best, while a strict improvement
installs the new score and resets stagnation to 0. -/
theorem updateScore_best_monotone (s : PhysicsSimState α) (jm : JsMath α) (env : SimEnv α) :
    ((PhysicsSimulator.updateScore s jm env).1.bestScore ≤ s.bestScore) ∧
    (∀ s' snap, PhysicsSimulator.updateScore s jm env = (s', some snap) →
      ((s'.stagnationCount = s.stagnationCount + 1 ↔
          ¬ ((snap.score : WithTop α) < s.bestScore)) ∧
       (((snap.score : WithTop α) < s.bestScore) →
          s'.bestScore = (snap.score : WithTop α) ∧ s'.stagnationCount = 0))) := by
  constructor
  · unfold PhysicsSimulator.updateScore
    by_cases hf : s.isProcessingFeedback
    · simp [hf]
    · rw [if_neg hf]
      by_cases hl : env.len < env.treeCount * FLOATS_PER_TREE
      · simp [hl]
      · simp only [hl, if_false]
        cases hb : (scoreLoop jm env env.treeCount).bounds with
        | none => simp [hb]
        | some bb =>
          simp only [hb]
          split_ifs with hlt
          · exact le_of_lt hlt
          · exact le_refl _
  · intro s' snap h
    obtain ⟨-, -, -, -, -, -, hbest, hstag, -, -⟩ := updateScore_some_inv s s' jm env snap h
    constructor
    · rw [hstag]
      split_ifs with hlt
      · simp [hlt]
      · simp [hlt]
    · intro hlt
      rw [hbest, hstag]
      simp [hlt]

end ScoreThms

/-- Witness for C9: a first completed pass improves on the initial
`+∞` best score, installing the new score and zero stagnation. -/
theorem updateScore_best_monotone_witness :
    ((PhysicsSimulator.updateScore (PhysicsSimState.start ℚ)
        ⟨fun _ => 1, fun _ => 0, fun x => x, fun _ _ => 0, 0⟩
        ⟨1, [(0, 0)], fun _ => 0, fun _ => 0, 8, true, 1⟩).1.bestScore ≤
      (PhysicsSimState.start ℚ).bestScore) ∧
    ((PhysicsSimulator.updateScore (PhysicsSimState.start ℚ)
        ⟨fun _ => 1, fun _ => 0, fun x => x, fun _ _ => 0, 0⟩
        ⟨1, [(0, 0)], fun _ => 0, fun _ => 0, 8, true, 1⟩).1.bestScore = ((0 : ℚ) : WithTop ℚ)) ∧
    ((PhysicsSimulator.updateScore (PhysicsSimState.start ℚ)
        ⟨fun _ => 1, fun _ => 0, fun x => x, fun _ _ => 0, 0⟩
        ⟨1, [(0, 0)], fun _ => 0, fun _ => 0, 8, true, 1⟩).1.stagnationCount = 0) := by
  have h : PhysicsSimulator.updateScore (PhysicsSimState.start ℚ)
      ⟨fun _ => 1, fun _ => 0, fun x => x, fun _ _ => 0, 0⟩
      ⟨1, [(0, 0)], fun _ => 0, fun _ => 0, 8, true, 1⟩ =
    (⟨⟨0, 0, 0, 0⟩, false, false, ((0 : ℚ) : WithTop ℚ), 0, false⟩,
     some ⟨⟨0, 0, 0, 0⟩, 0, ((0 : ℚ) : WithTop ℚ), 0, 1/2, 0, 0, 0, 0, 1, 0⟩) := by
    norm_num [PhysicsSimulator.updateScore, scoreLoop, treeStep, updateBoundsPoint,
      FLOATS_PER_TREE, PhysicsSimState.start]
  have hm := updateScore_best_monotone (PhysicsSimState.start ℚ)
    (⟨fun _ => 1, fun _ => 0, fun x => x, fun _ _ => 0, 0⟩ : JsMath ℚ)
    ⟨1, [(0, 0)], fun _ => 0, fun _ => 0, 8, true, 1⟩
  have h2 := (hm.2 _ _ h).2 (by simp [PhysicsSimState.start])
  exact ⟨hm.1, by rw [h], by rw [h]⟩

/-- Witness for C3 on a one-object, one-vertex run: all transformed
vertices lie in the returned box and its left side is attained. -/
theorem updateScore_score_spec_witness :
    (∀ i < (1 : ℕ), ∀ v ∈ [((0 : ℚ), (0 : ℚ))],
      InBounds ⟨0, 0, 0, 0⟩
        (transformVertex ⟨fun _ => 1, fun _ => 0, fun x => x, fun _ _ => 0, 0⟩
          ⟨1, [(0, 0)], fun _ => 0, fun _ => 0, 8, true, 1⟩ i v)) ∧
    (∃ i < (1 : ℕ), ∃ v ∈ [((0 : ℚ), (0 : ℚ))],
      (transformVertex ⟨fun _ => 1, fun _ => 0, fun x => x, fun _ _ => 0, 0⟩
        ⟨1, [(0, 0)], fun _ => 0, fun _ => 0, 8, true, 1⟩ i v).1 = (0 : ℚ)) := by
  have h : PhysicsSimulator.updateScore (PhysicsSimState.start ℚ)
      ⟨fun _ => 1, fun _ => 0, fun x => x, fun _ _ => 0, 0⟩
      ⟨1, [(0, 0)], fun _ => 0, fun _ => 0, 8, true, 1⟩ =
    (⟨⟨0, 0, 0, 0⟩, false, false, ((0 : ℚ) : WithTop ℚ), 0, false⟩,
     some ⟨⟨0, 0, 0, 0⟩, 0, ((0 : ℚ) : WithTop ℚ), 0, 1/2, 0, 0, 0, 0, 1, 0⟩) := by
    norm_num [PhysicsSimulator.updateScore, scoreLoop, treeStep, updateBoundsPoint,
      FLOATS_PER_TREE, PhysicsSimState.start]
  have r := updateScore_score_spec _ _ _ _ _ h
  exact ⟨r.1, r.2.1⟩
